import Mathlib

/-!
Verification development for the photo-pipeline orchestration core.

The definitions below are shallow embeddings of the Python source:
`src/utils/registry.py` (idempotency ledger), `src/metadata_generator.py`
(metadata resolution engine), `src/utils/api.py` and `src/openai_analyzer.py`
(throttled inference gateway).  Python dictionaries are modelled as
association lists with insert-or-replace update (Python dict assignment
keeps the position of an existing key and appends new keys), persistence
failures as an explicit outcome value, and calls into external services
(HTTP geocoding, the JSON decoder of the standard library, `float` parsing,
the regex engine) as oracle parameters.
-/

namespace Pipeline

/-- Python dict assignment `d[k] = v` on an association list: replaces the
value at the first occurrence of the key, otherwise appends the binding. -/
def insertReplace {α : Type} : List (String × α) → String → α → List (String × α)
  | [], k, v => [(k, v)]
  | (k', v') :: t, k, v =>
    if k' = k then (k, v) :: t else (k', v') :: insertReplace t k v

end Pipeline

namespace Registry

open Pipeline

/-- Entry of `processed_files.json`: timestamp plus arbitrary metadata
(`mark_as_processed`, registry.py lines 112-125). -/
structure ProcEntry where
  timestamp : Nat
  metadata : List (String × String)
deriving Repr, DecidableEq

/-- Entry of `uploaded_files.json`: timestamp plus the optional SharePoint
target URL (`mark_as_uploaded`, registry.py lines 127-140). -/
structure UploadEntry where
  timestamp : Nat
  targetUrl : Option String
deriving Repr, DecidableEq

/-- In-memory state of `FileRegistry`: the `"files"` maps of the processed
and uploaded registries and the `"filename_mapping"` table stored inside
the processed registry. -/
structure FileRegistry where
  processedFiles : List (String × ProcEntry)
  uploadedFiles : List (String × UploadEntry)
  filenameMapping : List (String × String)
deriving Repr, DecidableEq

def emptyRegistry : FileRegistry := ⟨[], [], []⟩

/-- Outcome of the underlying file write attempted by `save_json_file`. -/
inductive SaveOutcome where
  | ok
  | ioError (msg : String)
deriving Repr, DecidableEq

/-- `save_json_file` (paths.py): raises on an I/O failure. -/
def save_json_file : SaveOutcome → Except String Unit
  | .ok => .ok ()
  | .ioError m => .error m

/-- `FileRegistry._save_registry` (registry.py lines 73-86): the call to
`save_json_file` sits inside `try/except`, and the handler only logs the
error, so nothing propagates to the caller. -/
def saveRegistry (o : SaveOutcome) : Except String Unit :=
  match save_json_file o with
  | .ok _ => .ok ()
  | .error _ => .ok ()

/-- `FileRegistry.is_processed` (lines 88-98): direct key membership. -/
def isProcessed (r : FileRegistry) (filename : String) : Bool :=
  (r.processedFiles.lookup filename).isSome

/-- `FileRegistry.is_uploaded` (lines 100-110): direct key membership, no
alias resolution. -/
def isUploaded (r : FileRegistry) (filename : String) : Bool :=
  (r.uploadedFiles.lookup filename).isSome

/-- `FileRegistry.mark_as_processed` (lines 112-125): dict assignment then
`_save_registry`; the second component is what the method lets escape. -/
def markAsProcessed (r : FileRegistry) (filename : String)
    (metadata : List (String × String)) (ts : Nat) (o : SaveOutcome) :
    FileRegistry × Except String Unit :=
  ({ r with processedFiles := insertReplace r.processedFiles filename ⟨ts, metadata⟩ },
   saveRegistry o)

/-- `FileRegistry.mark_as_uploaded` (lines 127-140). -/
def markAsUploaded (r : FileRegistry) (filename : String)
    (targetUrl : Option String) (ts : Nat) (o : SaveOutcome) :
    FileRegistry × Except String Unit :=
  ({ r with uploadedFiles := insertReplace r.uploadedFiles filename ⟨ts, targetUrl⟩ },
   saveRegistry o)

/-- `FileRegistry.map_filename` (lines 232-250): records
`filename_mapping[original] = target` inside the processed registry. -/
def mapFilename (r : FileRegistry) (original target : String) (o : SaveOutcome) :
    FileRegistry × Except String Unit :=
  ({ r with filenameMapping := insertReplace r.filenameMapping original target },
   saveRegistry o)

/-- `FileRegistry.get_mapped_filename` (lines 252-265). -/
def getMappedFilename (r : FileRegistry) (original : String) : Option String :=
  r.filenameMapping.lookup original

/-- The already-uploaded skip decision of `find_processed_photos`
(metadata_generator.py lines 543-553): ledger lookup under the original
name first, then the alias table, then the ledger under the mapped name —
the mapped name is consulted only when truthy
(`if mapped_filename and registry.is_uploaded(mapped_filename)`,
line 551), so a `None` or empty-string alias target never causes a skip. -/
def uploadedSkipCheck (r : FileRegistry) (originalName : String) : Bool :=
  if isUploaded r originalName then true
  else
    match getMappedFilename r originalName with
    | some mapped => !mapped.isEmpty && isUploaded r mapped
    | none => false

end Registry

namespace MetadataGen

open Pipeline

/-- Dynamically typed values as they occur in the analysis and EXIF
dictionaries (JSON-ish: strings, integers, booleans, lists, None).
Floating-point payloads are not modelled; no claim depends on them. -/
inductive PyVal where
  | str (s : String)
  | int (n : Int)
  | bool (b : Bool)
  | list (l : List PyVal)
  | none_

mutual

/-- Python `repr` of a value (string escaping inside `repr` is not
modelled; no claim depends on it). -/
def pyRepr : PyVal → String
  | .str s => "\x27" ++ s ++ "\x27"
  | .int n => toString n
  | .bool b => if b then "True" else "False"
  | .none_ => "None"
  | .list l => "[" ++ String.intercalate ", " (pyReprList l) ++ "]"

def pyReprList : List PyVal → List String
  | [] => []
  | v :: vs => pyRepr v :: pyReprList vs

end

/-- Python `str` applied to a value: identity on strings, `repr`-like
otherwise. -/
def pyStr : PyVal → String
  | .str s => s
  | v => pyRepr v

/-- Python truthiness of a value. -/
def pyTruthy : PyVal → Bool
  | .str s => !s.isEmpty
  | .int n => n != 0
  | .bool b => b
  | .list l => !l.isEmpty
  | .none_ => false

/-- Occurrence of `needle` as a contiguous run anywhere in the list. -/
def containsSeq (needle : List Char) : List Char → Bool
  | [] => needle.isEmpty
  | c :: rest => needle.isPrefixOf (c :: rest) || containsSeq needle rest

/-- Python substring test `needle in hay`. -/
def strContains (hay needle : String) : Bool :=
  containsSeq needle.toList hay.toList

/-- Python `str.lower()` (character-wise, ASCII as in the inputs the
claims exercise). -/
def pyLower (s : String) : String :=
  String.mk (s.toList.map Char.toLower)

/-- Python slice `s[:n]` (by characters). -/
def pyTake (s : String) (n : Nat) : String :=
  String.mk (s.toList.take n)

/-- Splitting worker: cut at every occurrence of the non-empty separator
`s0 :: srest`, scanning left to right. -/
def splitGo (s0 : Char) (srest : List Char) : List Char → List Char → List (List Char)
  | [], acc => [acc.reverse]
  | c :: rest, acc =>
    if (s0 :: srest).isPrefixOf (c :: rest) then
      acc.reverse :: splitGo s0 srest ((c :: rest).drop (srest.length + 1)) []
    else splitGo s0 srest rest (c :: acc)
termination_by l _ => l.length
decreasing_by
  · simp only [List.length_drop, List.length_cons]
    omega
  · simp only [List.length_cons]
    omega

/-- Python `s.split(sep)` for a non-empty separator. -/
def pySplit (s sep : String) : List String :=
  match sep.toList with
  | [] => [s]
  | c :: cs => (splitGo c cs s.toList []).map String.mk

/-- One field of the target schema JSON: the keys read by
`metadata_generator.py` (`internal_name`, `title`, `type`, `choices`) plus
the `required` flag that the schema file carries but
`generate_metadata_for_upload` never consults. -/
structure FieldSchema where
  internal_name : String
  title : String
  type : String
  choices : List String
  required : Bool
deriving Repr, DecidableEq

/-- The fuzzy-match loop of `validate_metadata_field` (lines 198-201 and
220-224): first allowed value related to the candidate by case-insensitive
substring containment in either direction. -/
def findChoiceMatch (choices : List String) (v : String) : Option String :=
  choices.find? (fun choice =>
    strContains (pyLower choice) (pyLower v) || strContains (pyLower v) (pyLower choice))

/-- What a single candidate element of a choice field resolves to: the
element itself on an exact hit, otherwise the first fuzzy hit, otherwise
nothing.  Reference combinator used to state properties of the
`MultiChoice` element loop. -/
def choiceMatchResult (choices : List String) (s : String) : Option String :=
  if choices.contains s then some s else findChoiceMatch choices s

/-- Element loop of the `MultiChoice` branch (lines 213-224): exact match
keeps the element, fuzzy match substitutes the canonical choice, a miss
drops the element.  A non-string element reaches `value.lower()` (when the
choice set is non-empty) and raises, which the enclosing handler of
`validate_metadata_field` turns into `(False, None)`. -/
def multiChoiceValidate (choices : List String) : List PyVal → Except Unit (List String)
  | [] => .ok []
  | v :: rest =>
    match v with
    | .str s =>
      if choices.contains s then
        (multiChoiceValidate choices rest).map (fun tail => s :: tail)
      else
        match findChoiceMatch choices s with
        | some c => (multiChoiceValidate choices rest).map (fun tail => c :: tail)
        | none => multiChoiceValidate choices rest
    | _ =>
      if choices.isEmpty then multiChoiceValidate choices rest
      else .error ()

/-- `validate_metadata_field` (metadata_generator.py lines 169-242),
returning Python's `(is_valid, validated_value)` with `PyVal.none_` for
Python `None`.  The `field_name` parameter of the source is used only for
logging and is omitted. -/
def validate_metadata_field (field_value : PyVal) (field_schema : FieldSchema) :
    Bool × PyVal :=
  let ft := field_schema.type
  if ft = "Text" ∨ ft = "Note" then
    match field_value with
    | .none_ => (true, .str "")
    | v => (true, .str (pyStr v))
  else if ft = "Choice" then
    match field_value with
    | .str s =>
      if field_schema.choices.contains s then (true, .str s)
      else if !s.isEmpty then
        match findChoiceMatch field_schema.choices s with
        | some c => (true, .str c)
        | none => (false, .none_)
      else (false, .none_)
    | _ => (false, .none_)
  else if ft = "MultiChoice" then
    match field_value with
    | .str s =>
      match multiChoiceValidate field_schema.choices [.str s] with
      | .ok valid => (true, .list (valid.map PyVal.str))
      | .error _ => (false, .none_)
    | .list l =>
      match multiChoiceValidate field_schema.choices l with
      | .ok valid => (true, .list (valid.map PyVal.str))
      | .error _ => (false, .none_)
    | _ => (false, .none_)
  else if ft = "DateTime" then (true, field_value)
  else if ft = "User" then (true, field_value)
  else (true, field_value)

/-- The source-priority table of `generate_metadata_for_upload`
(lines 275-320), literally. -/
def field_priorities : List (String × List String) := [
  ("DateTime", ["exif", "analysis"]),
  ("Datum", ["exif", "analysis"]),
  ("Aufnahmedatum", ["exif", "analysis"]),
  ("OrtohnePLZ", ["exif_gps", "analysis"]),
  ("Ort", ["exif_gps", "analysis"]),
  ("Standort", ["exif_gps", "analysis"]),
  ("Location", ["exif_gps", "analysis"]),
  ("Titel", ["analysis", "exif"]),
  ("Beschreibung", ["analysis", "exif"]),
  ("Beschreibung_kurz", ["analysis", "exif"]),
  ("Beschreibung_lang", ["analysis", "exif"]),
  ("Title", ["analysis", "exif"]),
  ("Description", ["analysis", "exif"]),
  ("Kamera", ["exif", "analysis"]),
  ("Objektiv", ["exif", "analysis"]),
  ("Camera", ["exif", "analysis"]),
  ("Lens", ["exif", "analysis"]),
  ("ISO", ["exif", "analysis"]),
  ("Aperture", ["exif", "analysis"]),
  ("ShutterSpeed", ["exif", "analysis"]),
  ("FocalLength", ["exif", "analysis"]),
  ("Copyright", ["exif", "analysis"]),
  ("Author", ["exif", "analysis"]),
  ("Autor", ["exif", "analysis"]),
  ("Fotograf", ["exif", "analysis"]),
  ("Photographer", ["exif", "analysis"]),
  ("Material", ["analysis"]),
  ("Konstruktion", ["analysis"]),
  ("Holzart", ["analysis"]),
  ("Bauweise", ["analysis"]),
  ("Construction", ["analysis"]),
  ("WoodType", ["analysis"]),
  ("BuildingType", ["analysis"])]

/-- The EXIF-tag mapping of `generate_metadata_for_upload`
(lines 324-355), literally. -/
def exif_to_sharepoint : List (String × String) := [
  ("DateTime", "DateTimeOriginal"),
  ("Datum", "DateTimeOriginal"),
  ("Aufnahmedatum", "DateTimeOriginal"),
  ("Artist", "Artist"),
  ("Author", "Artist"),
  ("Autor", "Artist"),
  ("Fotograf", "Artist"),
  ("Photographer", "Artist"),
  ("Copyright", "Copyright"),
  ("Titel", "ImageDescription"),
  ("Title", "ImageDescription"),
  ("Beschreibung", "ImageDescription"),
  ("Beschreibung_kurz", "ImageDescription"),
  ("Description", "ImageDescription"),
  ("Kamera", "Make"),
  ("Camera", "Make"),
  ("Objektiv", "LensModel"),
  ("Lens", "LensModel"),
  ("ISO", "ISOSpeedRatings"),
  ("Aperture", "FNumber"),
  ("ShutterSpeed", "ExposureTime"),
  ("FocalLength", "FocalLength")]

/-- System fields skipped by the resolution loop (lines 363-365). -/
def skipFields : List String :=
  ["ID", "Created", "Modified", "Author", "Editor", "ContentType", "Vorschau",
   "DocIcon", "ComplianceAssetId", "OriginalName"]

/-- External collaborators of the resolution engine: the reverse-geocoding
HTTP lookup (`geocode_coordinates` returns a place name or `None`) and the
`float` builtin (`none` = `ValueError`). -/
structure Externals where
  geocode : ℚ → ℚ → Option String
  parseFloat : String → Option ℚ

/-- GPS handling of the `exif_gps` source (lines 388-408): parse
`"...: lat, lon"`, geocode, and on any `IndexError`/`ValueError` or
geocoding miss fall back to the raw string prefixed by `"GPS: "`. -/
def gpsBranchValue (ext : Externals) (gps_str : String) : PyVal :=
  match (pySplit gps_str ": ")[1]? with
  | none => .str ("GPS: " ++ gps_str)
  | some coordsStr =>
    let coords := pySplit coordsStr ", "
    match coords[0]?, coords[1]? with
    | some c0, some c1 =>
      match ext.parseFloat c0, ext.parseFloat c1 with
      | some lat, some lon =>
        match ext.geocode lat lon with
        | some location => .str location
        | none => .str ("GPS: " ++ gps_str)
      | _, _ => .str ("GPS: " ++ gps_str)
    | _, _ => .str ("GPS: " ++ gps_str)

/-- The per-field priority loop of `generate_metadata_for_upload`
(lines 371-411): successive sources until one breaks with a value;
falling off the loop leaves Python `None`.  A non-string
`'GPS Coordinates'` entry raises (`.split` on a non-string) and the
exception propagates out of the function (its outer handler re-raises). -/
def prioLoopE (ext : Externals) (analysis exif : List (String × PyVal)) (title : String) :
    List String → Except Unit PyVal
  | [] => .ok .none_
  | src :: rest =>
    if src = "analysis" then
      match analysis.lookup title with
      | some v => .ok v
      | none => prioLoopE ext analysis exif title rest
    else if src = "exif" then
      match exif_to_sharepoint.lookup title with
      | some ef =>
        if ef.isEmpty then prioLoopE ext analysis exif title rest
        else
          match exif.lookup ef with
          | some v => .ok v
          | none => prioLoopE ext analysis exif title rest
      | none => prioLoopE ext analysis exif title rest
    else if src = "exif_gps" then
      if (exif.lookup "GPSInfo").isSome then
        if title = "OrtohnePLZ" ∧ (exif.lookup "GPS Coordinates").isSome then
          let gpsv := (exif.lookup "GPS Coordinates").getD (.str "")
          if pyTruthy gpsv then
            match gpsv with
            | .str s => .ok (gpsBranchValue ext s)
            | _ => .error ()
          else prioLoopE ext analysis exif title rest
        else prioLoopE ext analysis exif title rest
      else prioLoopE ext analysis exif title rest
    else prioLoopE ext analysis exif title rest

/-- Candidate determination for one field: the priority table when the
title has an entry (lines 371-411), otherwise EXIF-by-name-match then
analysis-by-name-match (lines 412-422). -/
def determineValueE (ext : Externals) (analysis exif : List (String × PyVal))
    (title : String) : Except Unit PyVal :=
  match field_priorities.lookup title with
  | some priorities => prioLoopE ext analysis exif title priorities
  | none =>
    match (match exif_to_sharepoint.lookup title with
           | some ef => exif.lookup ef
           | none => none) with
    | some v => .ok v
    | none =>
      match analysis.lookup title with
      | some v => .ok v
      | none => .ok .none_

/-- `photo_info` as consumed by `generate_metadata_for_upload`: the name
and the `analysis` and `metadata` (EXIF) dictionaries. -/
structure PhotoInfo where
  name : String
  analysis : List (String × PyVal)
  exifMetadata : List (String × PyVal)

/-- Handling of one schema field (lines 358-430): skip system fields,
determine the candidate, validate, and record the validated value only
when validation succeeded with a non-`None` value. -/
def processField (ext : Externals) (photo : PhotoInfo)
    (md : List (String × PyVal)) (f : FieldSchema) : Except Unit (List (String × PyVal)) :=
  if skipFields.contains f.internal_name then .ok md
  else
    match determineValueE ext photo.analysis photo.exifMetadata f.title with
    | .error e => .error e
    | .ok .none_ => .ok md
    | .ok value =>
      match validate_metadata_field value f with
      | (true, .none_) => .ok md
      | (true, vv) => .ok (insertReplace md f.internal_name vv)
      | (false, _) => .ok md

def processFields (ext : Externals) (photo : PhotoInfo) :
    List FieldSchema → List (String × PyVal) → Except Unit (List (String × PyVal))
  | [], md => .ok md
  | f :: rest, md =>
    match processField ext photo md f with
    | .error e => .error e
    | .ok md' => processFields ext photo rest md'

/-- `generate_metadata_for_upload` (metadata_generator.py lines 245-444):
seed the record with `FileLeafRef`, process every schema field, default
`Status` to the constant draft marker, and overwrite `OriginalName` with
the source name.  `.error` is the re-raised exception of the outer
handler. -/
def generate_metadata_for_upload (ext : Externals) (photo_info : PhotoInfo)
    (schema : List FieldSchema) (target_filename : String) :
    Except Unit (List (String × PyVal)) :=
  match processFields ext photo_info schema [("FileLeafRef", .str target_filename)] with
  | .error e => .error e
  | .ok md =>
    let md := if (md.lookup "Status").isSome then md
              else insertReplace md "Status" (.str "Entwurf KI")
    .ok (insertReplace md "OriginalName" (.str photo_info.name))

end MetadataGen

namespace ApiUtils

/-- The `retry` decorator of `utils/api.py` (lines 20-63) applied to a
function whose k-th call (1-based `attempt`) yields `f k`: loop while
`attempt <= max_attempts`, re-raising the error of the final attempt.
The loop is driven structurally by the remaining-attempts count
`fuel = max_attempts - attempt + 1`, so the while-condition
`attempt <= max_attempts` is exactly `fuel > 0`; the first component is
the escaping outcome (`none` models Python falling off the loop and
returning `None`, reachable only for `max_attempts = 0`) and the second
counts the calls made so far. -/
def retryGo {a : Type} (f : Nat -> Except String a) (maxAttempts : Nat) :
    Nat -> Nat -> Nat -> Option (Except String a) × Nat
  | 0, _, calls => (none, calls)
  | fuel + 1, attempt, calls =>
    match f attempt with
    | .ok v => (some (.ok v), calls + 1)
    | .error e =>
      if attempt = maxAttempts then (some (.error e), calls + 1)
      else retryGo f maxAttempts fuel (attempt + 1) (calls + 1)

def retryRun {a : Type} (f : Nat -> Except String a) (maxAttempts : Nat) :
    Option (Except String a) × Nat :=
  retryGo f maxAttempts maxAttempts 1 0

/-- Delay slept after the k-th failed attempt (0-based): `retry` starts at
`retry_delay` and multiplies by `backoff_factor` after each sleep; this
decorator has no cap. -/
def apiDelay (retry_delay backoff_factor : ℚ) (k : Nat) : ℚ :=
  retry_delay * backoff_factor ^ k

end ApiUtils

namespace Analyzer

/-- Configuration of `OpenAIRateLimiter.__init__` (openai_analyzer.py
lines 316-339): the bucket ceilings equal the per-minute rates. -/
structure LimiterConfig where
  requestsPerMinute : ℚ
  maxTokensPerMinute : ℚ

/-- Budget state: the request bucket, the token bucket, and the last
refill instant. -/
structure LimiterState where
  requestTokens : ℚ
  tokens : ℚ
  lastRefillTime : ℚ

/-- One pass of the `_refill_tokens` loop body (lines 381-394): top-up
from elapsed wall-clock time, clamped at the ceilings.  In the source this
body runs on a fixed one-second tick inside a daemon thread. -/
def refillStep (cfg : LimiterConfig) (s : LimiterState) (currentTime : ℚ) : LimiterState :=
  let elapsed := currentTime - s.lastRefillTime
  { requestTokens := min cfg.requestsPerMinute
      (s.requestTokens + cfg.requestsPerMinute * elapsed / 60),
    tokens := min cfg.maxTokensPerMinute
      (s.tokens + cfg.maxTokensPerMinute * elapsed / 60),
    lastRefillTime := currentTime }

/-- The locked admission check of `wait_for_capacity` (lines 410-415):
consume one request token and the token estimate when both suffice.  No
refill is computed here. -/
def tryConsume (s : LimiterState) (tokensNeeded : ℚ) : Option LimiterState :=
  if 1 <= s.requestTokens ∧ tokensNeeded <= s.tokens then
    some { s with requestTokens := s.requestTokens - 1, tokens := s.tokens - tokensNeeded }
  else none

/-- Modelled from the spec: the admission attempt the specification
describes, which recomputes the token-bucket refill from elapsed
wall-clock time on the attempt itself before consuming.  Used only to
contrast with `tryConsume`, the attempt the source actually performs. -/
def admitSpec (cfg : LimiterConfig) (s : LimiterState) (currentTime tokensNeeded : ℚ) :
    Option LimiterState :=
  tryConsume (refillStep cfg s currentTime) tokensNeeded

/-- An interleaving of limiter events: background refill ticks and
admission attempts (a failed attempt leaves the state unchanged). -/
inductive LimiterEvent where
  | refill (t : ℚ)
  | acquire (needed : ℚ)

def applyEvent (cfg : LimiterConfig) (s : LimiterState) : LimiterEvent -> LimiterState
  | .refill t => refillStep cfg s t
  | .acquire n =>
    match tryConsume s n with
    | some s2 => s2
    | none => s

def runEvents (cfg : LimiterConfig) (s : LimiterState) (es : List LimiterEvent) : LimiterState :=
  es.foldl (applyEvent cfg) s

/-- Per-iteration sleep of `wait_for_capacity` (line 418). -/
def waitTime (tokensNeeded maxTokensPerMinute : ℚ) : ℚ :=
  1 + tokensNeeded / maxTokensPerMinute * 10

/-- `wait_for_capacity` (lines 396-423) driven by an oracle `stateAt`
giving the shared limiter state observed at each locked check (the
background thread refills between checks): `k` counts checks, `t` is the
elapsed time since `start_time`, and the explicit fuel bounds the
recursion (its exhaustion, `none`, is unreachable for the fuel used in
`waitForCapacity`, as proved below).  The result carries the consumed
state on admission (`wait_for_capacity` returning `True`) or `none` for
the timeout return of line 423, plus the number of checks made. -/
def waitLoop (stateAt : Nat -> LimiterState) (needed maxTPM : ℚ) :
    Nat -> ℚ -> Nat -> Option (Option LimiterState × Nat)
  | _, _, 0 => none
  | k, t, fuel + 1 =>
    if t < 60 then
      match tryConsume (stateAt k) needed with
      | some s2 => some (some s2, k + 1)
      | none => waitLoop stateAt needed maxTPM (k + 1) (t + waitTime needed maxTPM) fuel
    else some (none, k)

def waitForCapacity (stateAt : Nat -> LimiterState) (needed maxTPM : ℚ) :
    Option (Option LimiterState × Nat) :=
  waitLoop stateAt needed maxTPM 0 0 61

/-- The admission gate of `analyze_photo_with_openai` (lines 988-990): a
`False` from `wait_for_capacity` raises the capacity-exceeded error. -/
def capacityGate (admitted : Bool) : Except String Unit :=
  if admitted then .ok ()
  else .error "Timeout waiting for API capacity. Try again later."

/-- Substrings making an error result retryable in
`process_photo_with_openai` (lines 1284-1292). -/
def retryableErrors : List String :=
  ["Failed to parse JSON", "rate limit", "timeout", "connection", "network",
   "server", "capacity"]

/-- Substrings making an escaping exception retryable (lines 1329-1337). -/
def retryableExceptions : List String :=
  ["rate limit", "timeout", "connection", "network", "server", "capacity",
   "too many requests"]

/-- `any(err in error_msg.lower() for err in keywords)`: the keyword
itself is not lowered, exactly as in the source. -/
def anyKeywordIn (keywords : List String) (msg : String) : Bool :=
  keywords.any (fun e => MetadataGen.strContains (MetadataGen.pyLower msg) e)

/-- Observable outcome of one `analyze_photo_with_openai` call as seen by
`process_photo_with_openai`: a clean analysis, an analysis carrying an
`error` entry (with optional `raw_response`), or an escaping exception. -/
inductive AttemptOutcome where
  | success
  | errorResult (msg : String) (raw : Option String)
  | exn (msg : String)

/-- Final outcome of `process_photo_with_openai`: the photo info either
gains the analysis or gains an `error` entry (optionally with the raw
response text). -/
inductive ProcessOutcome where
  | completed
  | failed (errorMsg : String) (raw : Option String)

/-- The exhausted-retries message of line 1350. -/
def exhaustedMsg (maxRetries : Nat) (lastError : Option String) : String :=
  "Maximum retry attempts (" ++ toString maxRetries ++ ") exceeded. Last error: " ++
    (match lastError with | some m => m | none => "None")

/-- Retry loop of `process_photo_with_openai` (lines 1229-1351), paired
with the number of analysis attempts made.  An error or exception is
retried only when a retryable keyword occurs in it and retries remain;
otherwise the loop returns with the error recorded.  The loop is driven
structurally by the remaining-retries count `fuel = max_retries - k`, so
the while-condition `retry_count < max_retries` is exactly `fuel > 0` and
the fall-off return of line 1350 is the `fuel = 0` case. -/
def processGo (attempt : Nat -> AttemptOutcome) (maxRetries : Nat) :
    Nat -> Nat -> Option String -> ProcessOutcome × Nat
  | 0, k, lastError => (.failed (exhaustedMsg maxRetries lastError) none, k)
  | fuel + 1, k, lastError =>
    match attempt k with
    | .success => (.completed, k + 1)
    | .errorResult msg raw =>
      if anyKeywordIn retryableErrors msg ∧ k < maxRetries - 1 then
        processGo attempt maxRetries fuel (k + 1) (some msg)
      else (.failed msg raw, k + 1)
    | .exn msg =>
      if anyKeywordIn retryableExceptions msg ∧ k < maxRetries - 1 then
        processGo attempt maxRetries fuel (k + 1) (some msg)
      else (.failed msg none, k + 1)

def processPhoto (attempt : Nat -> AttemptOutcome) (maxRetries : Nat) :
    ProcessOutcome × Nat :=
  processGo attempt maxRetries maxRetries 0 none

/-- Backoff recurrence of `process_photo_with_openai` (line 1239): after
each sleep, `backoff_time = min(30, backoff_time * 2) * jitter` with the
random jitter `0.8 + 0.4 * random()` in `[0.8, 1.2)`;
`backoffSeq j k` is the delay slept before retry attempt `k + 1`. -/
def backoffNext (b j : ℚ) : ℚ := min 30 (b * 2) * j

def backoffSeq (j : Nat -> ℚ) : Nat -> ℚ
  | 0 => 1
  | k + 1 => backoffNext (backoffSeq j k) (j k)

/-- `re.sub` dropping every markdown fence occurrence (line 1072): at each
position the longer alternative is preferred, as in the regex.  The fuel
is the remaining character count (every step consumes at least one
character, so starting it at the length never exhausts it). -/
def stripFencesGo : Nat -> List Char -> List Char
  | 0, _ => []
  | _ + 1, [] => []
  | fuel + 1, c :: rest =>
    if ("```json".toList).isPrefixOf (c :: rest) then
      stripFencesGo fuel ((c :: rest).drop 7)
    else if ("```".toList).isPrefixOf (c :: rest) then
      stripFencesGo fuel ((c :: rest).drop 3)
    else c :: stripFencesGo fuel rest

def stripFences (s : String) : String :=
  String.mk (stripFencesGo s.toList.length s.toList)

/-- Python `str.find(c)`: index of the first occurrence. -/
def pyFindChar : List Char -> Char -> Option Nat
  | [], _ => none
  | x :: xs, c => if x = c then some 0 else (pyFindChar xs c).map (fun i => i + 1)

/-- Python `str.rfind(c)`: index of the last occurrence. -/
def pyRFindChar (cs : List Char) (c : Char) : Option Nat :=
  match pyFindChar cs.reverse c with
  | some i => some (cs.length - 1 - i)
  | none => none

/-- `json_start = find(brace)`, `json_end = rfind(close-brace) + 1`, slice
`[json_start:json_end]` when `json_start >= 0` and
`json_end > json_start` (lines 1075-1079). -/
def extractJsonSlice (s : String) : Option String :=
  let cs := s.toList
  match pyFindChar cs (Char.ofNat 123), pyRFindChar cs (Char.ofNat 125) with
  | some js, some je =>
    if js < je + 1 then some (String.mk ((cs.drop js).take (je + 1 - js))) else none
  | _, _ => none

/-- Fallback content parsing of `analyze_photo_with_openai`
(lines 1066-1115): strip markdown fences, extract the outermost
brace-delimited slice and parse it, on a decode error parse the
regex-repaired variant, and with no slice parse the whole cleaned text.
`parse` stands for `json.loads` and `fixups` for the three regex repairs
of lines 1090-1099 (external engines, passed as oracles). -/
def parseContent {a : Type} (parse : String -> Option a) (fixups : String -> String)
    (raw : String) : Option a :=
  let cleaned := stripFences raw
  match extractJsonSlice cleaned with
  | some jsonStr =>
    match parse jsonStr with
    | some r => some r
    | none => parse (fixups jsonStr)
  | none => parse cleaned

inductive AnalyzeOutcome (a : Type) where
  | done (result : a)
  | malformed (errorMsg : String) (rawResponse : String)
  | outOfRetries

/-- The content-parsing retry loop of `analyze_photo_with_openai`
(lines 949-1153 restricted to the JSON-decode path): attempt `k` parses
the raw content `raws k`; a decode failure at the last attempt produces
the minimal fallback record, whose `error` entry is
"Failed to parse JSON from response" and whose `raw_response` entry is
`result_text[:500]` (line 1142), where `result_text` is the
fence-stripped content — line 1072 reassigns it to the output of the
`re.sub` before both extraction and the fallback record use it;
`outOfRetries` is the fall-off return of line 1186, reachable only for
`max_retries = 0`.  The loop is driven structurally by the
remaining-retries count `fuel = max_retries - k`. -/
def analyzeGo {a : Type} (parse : String -> Option a) (fixups : String -> String)
    (raws : Nat -> String) (maxRetries : Nat) : Nat -> Nat -> AnalyzeOutcome a
  | 0, _ => .outOfRetries
  | fuel + 1, k =>
    match parseContent parse fixups (raws k) with
    | some r => .done r
    | none =>
      if k = maxRetries - 1 then
        .malformed "Failed to parse JSON from response"
          (MetadataGen.pyTake (stripFences (raws k)) 500)
      else analyzeGo parse fixups raws maxRetries fuel (k + 1)

def analyzeParse {a : Type} (parse : String -> Option a) (fixups : String -> String)
    (raws : Nat -> String) (maxRetries : Nat) : AnalyzeOutcome a :=
  analyzeGo parse fixups raws maxRetries maxRetries 0

end Analyzer

/-! ### Further definitions are inserted above this line; theorems follow. -/

namespace Pipeline

theorem lookup_insertReplace_self {α : Type} (l : List (String × α)) (k : String) (v : α) :
    (insertReplace l k v).lookup k = some v := by
  induction l with
  | nil => simp [insertReplace, List.lookup]
  | cons p t ih =>
    obtain ⟨k', v'⟩ := p
    by_cases h : k' = k
    · subst h
      simp [insertReplace, List.lookup]
    · have hb : (k == k') = false := beq_eq_false_iff_ne.mpr (Ne.symm h)
      simp [insertReplace, h, List.lookup, hb, ih]

theorem lookup_insertReplace_ne {α : Type} (l : List (String × α)) (k k₀ : String) (v : α)
    (h : k₀ ≠ k) : (insertReplace l k v).lookup k₀ = l.lookup k₀ := by
  induction l with
  | nil =>
    have hb : (k₀ == k) = false := beq_eq_false_iff_ne.mpr h
    simp [insertReplace, List.lookup, hb]
  | cons p t ih =>
    obtain ⟨k', v'⟩ := p
    by_cases hk : k' = k
    · have hb : (k₀ == k) = false := beq_eq_false_iff_ne.mpr h
      have hb' : (k₀ == k') = false := by rw [hk]; exact hb
      simp [insertReplace, if_pos hk, List.lookup, hb, hb']
    · simp only [insertReplace, if_neg hk, List.lookup]
      rw [ih]

/-- Writing the same key twice keeps only the second value: Python dict
assignment is absorbing. -/
theorem insertReplace_insertReplace {α : Type} (l : List (String × α)) (k : String) (v₁ v₂ : α) :
    insertReplace (insertReplace l k v₁) k v₂ = insertReplace l k v₂ := by
  induction l with
  | nil => simp [insertReplace]
  | cons p t ih =>
    obtain ⟨k', v'⟩ := p
    by_cases h : k' = k
    · simp [insertReplace, h]
    · simp [insertReplace, h, ih]

theorem countP_insertReplace {α : Type} (l : List (String × α)) (k : String) (v : α) :
    (insertReplace l k v).countP (fun p => p.1 = k) =
      if l.countP (fun p => p.1 = k) = 0 then 1 else l.countP (fun p => p.1 = k) := by
  induction l with
  | nil => simp [insertReplace]
  | cons p t ih =>
    obtain ⟨k', v'⟩ := p
    by_cases h : k' = k
    · subst h
      simp [insertReplace, List.countP_cons]
    · simp only [insertReplace, if_neg h, List.countP_cons, decide_eq_true_eq, h,
        if_false, Nat.add_zero]
      rw [ih]

end Pipeline

/-- C2, corrected: `_save_registry` catches the write failure of
`save_json_file` and only logs it, so `mark_as_processed` and
`mark_as_uploaded` return normally even on a failed persist — the in-memory
entry is recorded, nothing is surfaced to the caller. -/
theorem C2_ledger_write_failure_swallowed (r : Registry.FileRegistry) (fn : String)
    (md : List (String × String)) (url : Option String) (ts : Nat) (msg : String) :
    (Registry.markAsProcessed r fn md ts (.ioError msg)).2 = .ok () ∧
    Registry.isProcessed (Registry.markAsProcessed r fn md ts (.ioError msg)).1 fn = true ∧
    (Registry.markAsUploaded r fn url ts (.ioError msg)).2 = .ok () ∧
    Registry.isUploaded (Registry.markAsUploaded r fn url ts (.ioError msg)).1 fn = true := by
  refine ⟨rfl, ?_, rfl, ?_⟩ <;>
      simp [Registry.markAsProcessed, Registry.markAsUploaded, Registry.isProcessed,
        Registry.isUploaded, Pipeline.lookup_insertReplace_self]

/-- C2 counterexample: persisting the ledger fails (`save_json_file`
raises) and yet both recording operations return normally, refuting the
claim that the failure is surfaced to the caller. -/
theorem C2_ledger_write_failure_counterexample :
    (Registry.markAsProcessed Registry.emptyRegistry "a.jpg" [] 0 (.ioError "disk full")).2
        = .ok () ∧
    (Registry.markAsUploaded Registry.emptyRegistry "a.jpg" none 0 (.ioError "disk full")).2
        = .ok () :=
  ⟨rfl, rfl⟩

/-- C3: recording the same filename twice at a stage overwrites the entry
without duplicating it (exactly one entry per name remains, and the double
record equals the single second record), and after the first recording the
stage lookup reports the item as already processed / uploaded. -/
theorem C3_record_stage_idempotent (r : Registry.FileRegistry) (fn : String)
    (md1 md2 : List (String × String)) (url1 url2 : Option String)
    (ts1 ts2 : Nat) (o1 o2 : Registry.SaveOutcome)
    (hp : r.processedFiles.countP (fun p => p.1 = fn) ≤ 1)
    (hu : r.uploadedFiles.countP (fun p => p.1 = fn) ≤ 1) :
    Registry.isProcessed (Registry.markAsProcessed r fn md1 ts1 o1).1 fn = true ∧
    Registry.isUploaded (Registry.markAsUploaded r fn url1 ts1 o1).1 fn = true ∧
    ((Registry.markAsProcessed (Registry.markAsProcessed r fn md1 ts1 o1).1 fn md2 ts2 o2).1.processedFiles.countP
        (fun p => p.1 = fn) = 1) ∧
    ((Registry.markAsUploaded (Registry.markAsUploaded r fn url1 ts1 o1).1 fn url2 ts2 o2).1.uploadedFiles.countP
        (fun p => p.1 = fn) = 1) ∧
    (Registry.markAsProcessed (Registry.markAsProcessed r fn md1 ts1 o1).1 fn md2 ts2 o2).1.processedFiles
        = (Registry.markAsProcessed r fn md2 ts2 o2).1.processedFiles ∧
    (Registry.markAsUploaded (Registry.markAsUploaded r fn url1 ts1 o1).1 fn url2 ts2 o2).1.uploadedFiles
        = (Registry.markAsUploaded r fn url2 ts2 o2).1.uploadedFiles := by
  refine ⟨?_, ?_, ?_, ?_, ?_, ?_⟩
  · simp [Registry.markAsProcessed, Registry.isProcessed, Pipeline.lookup_insertReplace_self]
  · simp [Registry.markAsUploaded, Registry.isUploaded, Pipeline.lookup_insertReplace_self]
  · simp only [Registry.markAsProcessed, Pipeline.countP_insertReplace]
    rcases Nat.lt_or_ge (r.processedFiles.countP (fun p => p.1 = fn)) 1 with h | h
    · interval_cases h0 : r.processedFiles.countP (fun p => p.1 = fn) <;> simp
    · have h1 : r.processedFiles.countP (fun p => p.1 = fn) = 1 := le_antisymm hp h
      simp [h1]
  · simp only [Registry.markAsUploaded, Pipeline.countP_insertReplace]
    rcases Nat.lt_or_ge (r.uploadedFiles.countP (fun p => p.1 = fn)) 1 with h | h
    · interval_cases h0 : r.uploadedFiles.countP (fun p => p.1 = fn) <;> simp
    · have h1 : r.uploadedFiles.countP (fun p => p.1 = fn) = 1 := le_antisymm hu h
      simp [h1]
  · simp [Registry.markAsProcessed, Pipeline.insertReplace_insertReplace]
  · simp [Registry.markAsUploaded, Pipeline.insertReplace_insertReplace]

/-- C3 witness: both hypotheses hold at the empty registry, and the
conjunction is established there by the theorem itself. -/
theorem C3_record_stage_idempotent_witness :
    Registry.isProcessed (Registry.markAsProcessed Registry.emptyRegistry "a.jpg" [("size", "1024")] 1 .ok).1 "a.jpg" = true ∧
    Registry.isUploaded (Registry.markAsUploaded Registry.emptyRegistry "a.jpg" (some "u") 1 .ok).1 "a.jpg" = true ∧
    ((Registry.markAsProcessed (Registry.markAsProcessed Registry.emptyRegistry "a.jpg" [("size", "1024")] 1 .ok).1 "a.jpg" [] 2 .ok).1.processedFiles.countP
        (fun p => p.1 = "a.jpg") = 1) ∧
    ((Registry.markAsUploaded (Registry.markAsUploaded Registry.emptyRegistry "a.jpg" (some "u") 1 .ok).1 "a.jpg" none 2 .ok).1.uploadedFiles.countP
        (fun p => p.1 = "a.jpg") = 1) ∧
    (Registry.markAsProcessed (Registry.markAsProcessed Registry.emptyRegistry "a.jpg" [("size", "1024")] 1 .ok).1 "a.jpg" [] 2 .ok).1.processedFiles
        = (Registry.markAsProcessed Registry.emptyRegistry "a.jpg" [] 2 .ok).1.processedFiles ∧
    (Registry.markAsUploaded (Registry.markAsUploaded Registry.emptyRegistry "a.jpg" (some "u") 1 .ok).1 "a.jpg" none 2 .ok).1.uploadedFiles
        = (Registry.markAsUploaded Registry.emptyRegistry "a.jpg" none 2 .ok).1.uploadedFiles :=
  C3_record_stage_idempotent Registry.emptyRegistry "a.jpg" [("size", "1024")] []
    (some "u") none 1 2 .ok .ok (by decide) (by decide)

/-- C6, corrected: `is_uploaded` itself never consults the alias table, but
the caller `find_processed_photos` combines a direct ledger lookup with an
alias-resolved lookup (guarded by the truthiness of the mapped name), so
after `map_filename o t` and `mark_as_uploaded t` with a non-empty target
`t` the combined skip check reports the original name as uploaded. -/
theorem C6_skip_check_resolves_alias (r : Registry.FileRegistry) (o t : String)
    (url : Option String) (ts : Nat) (s1 s2 : Registry.SaveOutcome)
    (ht : t ≠ "") :
    Registry.uploadedSkipCheck
      ((Registry.markAsUploaded (Registry.mapFilename r o t s1).1 t url ts s2).1) o = true := by
  have hte : t.isEmpty = false := by
    rw [Bool.eq_false_iff]
    intro hc
    exact ht ((String.isEmpty_iff t).mp hc)
  unfold Registry.uploadedSkipCheck
  split
  · rfl
  · simp [Registry.mapFilename, Registry.markAsUploaded, Registry.getMappedFilename,
      Registry.isUploaded, Pipeline.lookup_insertReplace_self, hte]

/-- C6 witness: mapping `b.jpg` to the non-empty uploaded target
`Erni_Referenzfoto_0002.jpg`; the combined skip check reports `b.jpg` as
already uploaded. -/
theorem C6_skip_check_resolves_alias_witness :
    Registry.uploadedSkipCheck
      ((Registry.markAsUploaded (Registry.mapFilename Registry.emptyRegistry
        "b.jpg" "Erni_Referenzfoto_0002.jpg" .ok).1
        "Erni_Referenzfoto_0002.jpg" (some "https://example.org/2") 7 .ok).1) "b.jpg" = true :=
  C6_skip_check_resolves_alias Registry.emptyRegistry "b.jpg" "Erni_Referenzfoto_0002.jpg"
    (some "https://example.org/2") 7 .ok .ok (by decide)

/-- C6 counterexample: with `a.jpg` aliased to the uploaded target
`Erni_Referenzfoto_0001.jpg`, `is_uploaded` on the original name answers
false while it answers true on the target name — the stage lookup itself
does not resolve through the alias table. -/
theorem C6_is_uploaded_ignores_alias_counterexample :
    Registry.isUploaded
      (Registry.markAsUploaded (Registry.mapFilename Registry.emptyRegistry
        "a.jpg" "Erni_Referenzfoto_0001.jpg" .ok).1
        "Erni_Referenzfoto_0001.jpg" (some "https://example.org/1") 5 .ok).1 "a.jpg" = false ∧
    Registry.isUploaded
      (Registry.markAsUploaded (Registry.mapFilename Registry.emptyRegistry
        "a.jpg" "Erni_Referenzfoto_0001.jpg" .ok).1
        "Erni_Referenzfoto_0001.jpg" (some "https://example.org/1") 5 .ok).1
        "Erni_Referenzfoto_0001.jpg" = true := by
  constructor <;> rfl


namespace MetadataGen

theorem lookup_isSome_insertReplace_of {α : Type} (l : List (String × α)) (k k₀ : String)
    (v : α) (h : (l.lookup k₀).isSome = true) :
    ((Pipeline.insertReplace l k v).lookup k₀).isSome = true := by
  by_cases hk : k₀ = k
  · subst hk
    rw [Pipeline.lookup_insertReplace_self]
    rfl
  · rw [Pipeline.lookup_insertReplace_ne _ _ _ _ hk]
    exact h

theorem lookup_isSome_insertReplace_inv {α : Type} (l : List (String × α)) (k k₀ : String)
    (v : α) (h : ((Pipeline.insertReplace l k v).lookup k₀).isSome = true) :
    k₀ = k ∨ (l.lookup k₀).isSome = true := by
  by_cases hk : k₀ = k
  · exact Or.inl hk
  · rw [Pipeline.lookup_insertReplace_ne _ _ _ _ hk] at h
    exact Or.inr h

theorem processField_preserves (ext : Externals) (photo : PhotoInfo)
    (md : List (String × PyVal)) (f : FieldSchema) (md' : List (String × PyVal))
    (h : processField ext photo md f = .ok md') (k : String)
    (hk : (md.lookup k).isSome = true) : (md'.lookup k).isSome = true := by
  unfold processField at h
  split at h
  · cases h
    exact hk
  · split at h
    · cases h
    · cases h
      exact hk
    · split at h
      · cases h
        exact hk
      · cases h
        exact lookup_isSome_insertReplace_of _ _ _ _ hk
      · cases h
        exact hk

theorem processField_sound (ext : Externals) (photo : PhotoInfo)
    (md : List (String × PyVal)) (f : FieldSchema) (md' : List (String × PyVal))
    (h : processField ext photo md f = .ok md') (k : String)
    (hk : (md'.lookup k).isSome = true) :
    (md.lookup k).isSome = true ∨ f.internal_name = k := by
  unfold processField at h
  split at h
  · cases h
    exact Or.inl hk
  · split at h
    · cases h
    · cases h
      exact Or.inl hk
    · split at h
      · cases h
        exact Or.inl hk
      · cases h
        rcases lookup_isSome_insertReplace_inv _ _ _ _ hk with h1 | h1
        · exact Or.inr h1.symm
        · exact Or.inl h1
      · cases h
        exact Or.inl hk

theorem processFields_preserves (ext : Externals) (photo : PhotoInfo) :
    ∀ (fields : List FieldSchema) (md md' : List (String × PyVal)),
    processFields ext photo fields md = .ok md' →
    ∀ k, (md.lookup k).isSome = true → (md'.lookup k).isSome = true := by
  intro fields
  induction fields with
  | nil =>
    intro md md' h k hk
    cases h
    exact hk
  | cons f rest ih =>
    intro md md' h k hk
    unfold processFields at h
    split at h
    · cases h
    · rename_i md1 h1
      exact ih md1 md' h k (processField_preserves ext photo md f md1 h1 k hk)

theorem processFields_sound (ext : Externals) (photo : PhotoInfo) :
    ∀ (fields : List FieldSchema) (md md' : List (String × PyVal)),
    processFields ext photo fields md = .ok md' →
    ∀ k, (md'.lookup k).isSome = true →
    (md.lookup k).isSome = true ∨ ∃ f ∈ fields, f.internal_name = k := by
  intro fields
  induction fields with
  | nil =>
    intro md md' h k hk
    cases h
    exact Or.inl hk
  | cons f rest ih =>
    intro md md' h k hk
    unfold processFields at h
    split at h
    · cases h
    · rename_i md1 h1
      rcases ih md1 md' h k hk with h2 | h2
      · rcases processField_sound ext photo md f md1 h1 k h2 with h3 | h3
        · exact Or.inl h3
        · exact Or.inr ⟨f, List.mem_cons_self f rest, h3⟩
      · obtain ⟨g, hg, hgk⟩ := h2
        exact Or.inr ⟨g, List.mem_cons_of_mem f hg, hgk⟩

end MetadataGen

theorem lookup_singleton_isSome {α : Type} (k a : String) (b : α)
    (h : (List.lookup k [(a, b)]).isSome = true) : k = a := by
  by_cases hk : k = a
  · exact hk
  · exfalso
    have hb : (k == a) = false := beq_eq_false_iff_ne.mpr hk
    simp [List.lookup, hb] at h

/-- C1, corrected: the resolution step always returns a record containing
the filename field, the `Status` field and the `OriginalName` field (the
latter bound to the source name), and every other key of the record is the
internal name of some schema field; a non-skip-listed required field with
no valid candidate is omitted from the record entirely — it is not
defaulted to the sentinel `"none"`. -/
theorem C1_resolution_record_shape (ext : MetadataGen.Externals)
    (photo : MetadataGen.PhotoInfo) (schema : List MetadataGen.FieldSchema)
    (target : String) (md : List (String × MetadataGen.PyVal))
    (h : MetadataGen.generate_metadata_for_upload ext photo schema target = .ok md) :
    ((md.lookup "FileLeafRef").isSome = true) ∧
    ((md.lookup "Status").isSome = true) ∧
    (md.lookup "OriginalName" = some (.str photo.name)) ∧
    (∀ k, (md.lookup k).isSome = true →
      k = "FileLeafRef" ∨ k = "Status" ∨ k = "OriginalName" ∨
        ∃ f ∈ schema, f.internal_name = k) := by
  unfold MetadataGen.generate_metadata_for_upload at h
  split at h
  · cases h
  · rename_i md0 h0
    cases h
    refine ⟨?_, ?_, ?_, ?_⟩
    · apply MetadataGen.lookup_isSome_insertReplace_of
      by_cases hs : (md0.lookup "Status").isSome = true
      · simp only [hs, if_true]
        refine MetadataGen.processFields_preserves ext photo schema _ md0 h0 "FileLeafRef" ?_
        rfl
      · simp only [Bool.not_eq_true] at hs
        simp only [hs, Bool.false_eq_true, if_false]
        apply MetadataGen.lookup_isSome_insertReplace_of
        refine MetadataGen.processFields_preserves ext photo schema _ md0 h0 "FileLeafRef" ?_
        rfl
    · rw [Pipeline.lookup_insertReplace_ne _ _ _ _ (by decide)]
      by_cases hs : (md0.lookup "Status").isSome = true
      · simp only [hs, if_true]
      · simp only [Bool.not_eq_true] at hs
        simp only [hs, Bool.false_eq_true, if_false]
        rw [Pipeline.lookup_insertReplace_self]
        rfl
    · rw [Pipeline.lookup_insertReplace_self]
    · intro k hk
      rcases MetadataGen.lookup_isSome_insertReplace_inv _ _ _ _ hk with h1 | h1
      · exact Or.inr (Or.inr (Or.inl h1))
      · by_cases hs : (md0.lookup "Status").isSome = true
        · simp only [hs, if_true] at h1
          rcases MetadataGen.processFields_sound ext photo schema _ md0 h0 k h1 with h2 | h2
          · exact Or.inl (lookup_singleton_isSome _ _ _ h2)
          · exact Or.inr (Or.inr (Or.inr h2))
        · simp only [Bool.not_eq_true] at hs
          simp only [hs, Bool.false_eq_true, if_false] at h1
          rcases MetadataGen.lookup_isSome_insertReplace_inv _ _ _ _ h1 with h2 | h2
          · exact Or.inr (Or.inl h2)
          · rcases MetadataGen.processFields_sound ext photo schema _ md0 h0 k h2 with h3 | h3
            · exact Or.inl (lookup_singleton_isSome _ _ _ h3)
            · exact Or.inr (Or.inr (Or.inr h3))

/-- C1 witness: a one-field schema whose `Titel` field is filled from the
analysis source; the record shape facts are obtained from the theorem. -/
theorem C1_resolution_record_shape_witness :
    ((List.lookup "FileLeafRef"
        [("FileLeafRef", MetadataGen.PyVal.str "t.jpg"), ("Titel", MetadataGen.PyVal.str "Haus"),
         ("Status", MetadataGen.PyVal.str "Entwurf KI"),
         ("OriginalName", MetadataGen.PyVal.str "orig.jpg")]).isSome = true) ∧
    ((List.lookup "Status"
        [("FileLeafRef", MetadataGen.PyVal.str "t.jpg"), ("Titel", MetadataGen.PyVal.str "Haus"),
         ("Status", MetadataGen.PyVal.str "Entwurf KI"),
         ("OriginalName", MetadataGen.PyVal.str "orig.jpg")]).isSome = true) ∧
    (List.lookup "OriginalName"
        [("FileLeafRef", MetadataGen.PyVal.str "t.jpg"), ("Titel", MetadataGen.PyVal.str "Haus"),
         ("Status", MetadataGen.PyVal.str "Entwurf KI"),
         ("OriginalName", MetadataGen.PyVal.str "orig.jpg")]
      = some (MetadataGen.PyVal.str "orig.jpg")) := by
  have h := C1_resolution_record_shape ⟨fun _ _ => none, fun _ => none⟩
    ⟨"orig.jpg", [("Titel", MetadataGen.PyVal.str "Haus")], []⟩
    [⟨"Titel", "Titel", "Text", [], true⟩] "t.jpg"
    [("FileLeafRef", MetadataGen.PyVal.str "t.jpg"), ("Titel", MetadataGen.PyVal.str "Haus"),
     ("Status", MetadataGen.PyVal.str "Entwurf KI"),
     ("OriginalName", MetadataGen.PyVal.str "orig.jpg")] rfl
  exact ⟨h.1, h.2.1, h.2.2.1⟩

/-- C1 counterexample: a schema with a single required `Text` field and no
source attributes; the resolved record omits the field instead of binding
it to the sentinel `"none"`, refuting "never absent". -/
theorem C1_required_field_absent_counterexample :
    (MetadataGen.generate_metadata_for_upload ⟨fun _ _ => none, fun _ => none⟩
        ⟨"orig.jpg", [], []⟩ [⟨"Kunde", "Kunde", "Text", [], true⟩] "t.jpg").map
      (fun m => (m.lookup "Kunde").isSome) = .ok false ∧
    MetadataGen.generate_metadata_for_upload ⟨fun _ _ => none, fun _ => none⟩
        ⟨"orig.jpg", [], []⟩ [⟨"Kunde", "Kunde", "Text", [], true⟩] "t.jpg"
      = .ok [("FileLeafRef", MetadataGen.PyVal.str "t.jpg"),
             ("Status", MetadataGen.PyVal.str "Entwurf KI"),
             ("OriginalName", MetadataGen.PyVal.str "orig.jpg")] :=
  ⟨rfl, rfl⟩

/-- C8, corrected: against allowed values `["Residential", "Industrial"]`
the candidate `"residential building"` validates to the canonical
`"Residential"` (exact match first, then case-insensitive substring in
either direction), while `"Spaceship"` matches nothing and fails
validation; in the resolved record the field is then omitted (treated as
absent) rather than defaulted to a sentinel. -/
theorem C8_choice_fuzzing :
    MetadataGen.validate_metadata_field (.str "residential building")
      ⟨"Projektkategorie", "Projektkategorie", "Choice", ["Residential", "Industrial"], true⟩
      = (true, .str "Residential") ∧
    MetadataGen.validate_metadata_field (.str "Spaceship")
      ⟨"Projektkategorie", "Projektkategorie", "Choice", ["Residential", "Industrial"], true⟩
      = (false, .none_) ∧
    (MetadataGen.generate_metadata_for_upload ⟨fun _ _ => none, fun _ => none⟩
        ⟨"a.jpg", [("Projektkategorie", .str "Spaceship")], []⟩
        [⟨"Projektkategorie", "Projektkategorie", "Choice", ["Residential", "Industrial"], true⟩]
        "t.jpg").map (fun m => (m.lookup "Projektkategorie").isSome) = .ok false :=
  ⟨rfl, rfl, rfl⟩

/-- C8 counterexample: for the unmatched candidate `"Spaceship"` the
resolved record does not contain the field at all, refuting "the field
defaults to the sentinel". -/
theorem C8_no_sentinel_counterexample :
    (MetadataGen.generate_metadata_for_upload ⟨fun _ _ => none, fun _ => none⟩
        ⟨"b.jpg", [("Bildinhalt", .str "Spaceship")], []⟩
        [⟨"Bildinhalt", "Bildinhalt", "Choice", ["Residential", "Industrial"], true⟩]
        "t2.jpg").map (fun m => (m.lookup "Bildinhalt").isSome) = .ok false ∧
    MetadataGen.generate_metadata_for_upload ⟨fun _ _ => none, fun _ => none⟩
        ⟨"b.jpg", [("Bildinhalt", .str "Spaceship")], []⟩
        [⟨"Bildinhalt", "Bildinhalt", "Choice", ["Residential", "Industrial"], true⟩]
        "t2.jpg"
      = .ok [("FileLeafRef", MetadataGen.PyVal.str "t2.jpg"),
             ("Status", MetadataGen.PyVal.str "Entwurf KI"),
             ("OriginalName", MetadataGen.PyVal.str "b.jpg")] :=
  ⟨rfl, rfl⟩

theorem multiChoiceValidate_strings (choices : List String) (l : List String) :
    MetadataGen.multiChoiceValidate choices (l.map .str)
      = .ok (l.filterMap (MetadataGen.choiceMatchResult choices)) := by
  induction l with
  | nil => rfl
  | cons s rest ih =>
    simp only [List.map_cons, MetadataGen.multiChoiceValidate, List.filterMap_cons,
      MetadataGen.choiceMatchResult]
    by_cases hmem : s ∈ choices
    · simp [hmem, ih, Except.map]
    · cases hm : MetadataGen.findChoiceMatch choices s with
      | none => simp [hmem, hm, ih]
      | some c => simp [hmem, hm, ih, Except.map]

/-- C10, corrected: a `MultiChoice` field validates every string or
list-of-strings candidate as valid, the value being the (possibly empty)
list of elements that matched an allowed choice exactly or fuzzily, with
unmatched elements dropped; a fully unmatched candidate yields the empty
list where a `Choice` field yields `(False, None)`.  (A list containing a
non-string element, however, raises inside the loop and is reported
invalid — see the counterexample.) -/
theorem C10_multichoice_never_rejected (f g : MetadataGen.FieldSchema)
    (l : List String) (s : String)
    (hf : f.type = "MultiChoice") (hg : g.type = "Choice")
    (hgs1 : g.choices.contains s = false) (hgs2 : s ≠ "")
    (hgs3 : MetadataGen.findChoiceMatch g.choices s = none) :
    MetadataGen.validate_metadata_field (.list (l.map .str)) f
      = (true, .list ((l.filterMap (MetadataGen.choiceMatchResult f.choices)).map .str)) ∧
    MetadataGen.validate_metadata_field (.str s) f
      = (true, .list (([s].filterMap (MetadataGen.choiceMatchResult f.choices)).map .str)) ∧
    ((∀ x ∈ l, MetadataGen.choiceMatchResult f.choices x = none) →
      MetadataGen.validate_metadata_field (.list (l.map .str)) f = (true, .list [])) ∧
    MetadataGen.validate_metadata_field (.str s) g = (false, .none_) := by
  have hMulti : MetadataGen.validate_metadata_field (.list (l.map .str)) f
      = (true, .list ((l.filterMap (MetadataGen.choiceMatchResult f.choices)).map .str)) := by
    simp only [MetadataGen.validate_metadata_field, hf]
    rw [multiChoiceValidate_strings]
    simp
  refine ⟨hMulti, ?_, ?_, ?_⟩
  · simp only [MetadataGen.validate_metadata_field, hf]
    have : [MetadataGen.PyVal.str s] = [s].map .str := rfl
    rw [this, multiChoiceValidate_strings]
    simp
  · intro hall
    rw [hMulti, List.filterMap_eq_nil_iff.mpr hall]
    simp
  · have hse : s.isEmpty = false := by
      rw [Bool.eq_false_iff]
      intro hc
      exact hgs2 ((String.isEmpty_iff s).mp hc)
    have hnm : s ∉ g.choices := by simpa using hgs1
    simp [MetadataGen.validate_metadata_field, hg, hnm, hgs3, hse]

/-- C10 witness: concrete MultiChoice and Choice fields over
`["Residential", "Industrial"]`; the mixed candidate keeps the exact hit
and drops the miss, the unmatched singleton yields an empty list, and the
same unmatched candidate is rejected by the Choice field. -/
theorem C10_multichoice_never_rejected_witness :
    MetadataGen.validate_metadata_field
      (.list [.str "Residential", .str "spaceship"])
      ⟨"Material", "Material", "MultiChoice", ["Residential", "Industrial"], true⟩
      = (true, .list [.str "Residential"]) ∧
    MetadataGen.validate_metadata_field (.str "Spaceship")
      ⟨"Material", "Material", "MultiChoice", ["Residential", "Industrial"], true⟩
      = (true, .list []) ∧
    MetadataGen.validate_metadata_field (.str "Spaceship")
      ⟨"Holzart", "Holzart", "Choice", ["Residential", "Industrial"], true⟩
      = (false, .none_) := by
  have h := C10_multichoice_never_rejected
    ⟨"Material", "Material", "MultiChoice", ["Residential", "Industrial"], true⟩
    ⟨"Holzart", "Holzart", "Choice", ["Residential", "Industrial"], true⟩
    ["Residential", "spaceship"] "Spaceship"
    rfl rfl rfl (by decide) rfl
  exact ⟨h.1, h.2.1, h.2.2.2⟩

/-- C10 counterexample: the list candidate `[1]` (a non-string element)
makes the `MultiChoice` branch raise inside `value.lower()`; the enclosing
handler reports `(False, None)`, refuting "any list candidate is always
reported valid". -/
theorem C10_nonstring_element_counterexample :
    MetadataGen.validate_metadata_field (.list [.int 1])
      ⟨"Konstruktion", "Konstruktion", "MultiChoice", ["Residential", "Industrial"], true⟩
      = (false, .none_) := rfl

theorem retryGo_allFail {a : Type} (f : Nat -> Except String a) (e : Nat -> String)
    (maxAttempts : Nat) (hf : ∀ k, f k = .error (e k)) :
    ∀ fuel attempt calls, attempt + fuel = maxAttempts + 1 → 1 ≤ fuel →
    ApiUtils.retryGo f maxAttempts fuel attempt calls
      = (some (.error (e maxAttempts)), calls + fuel) := by
  intro fuel
  induction fuel with
  | zero =>
    intro attempt calls h h1
    omega
  | succ n ih =>
    intro attempt calls h h1
    simp only [ApiUtils.retryGo, hf attempt]
    by_cases he : attempt = maxAttempts
    · have hn0 : n = 0 := by omega
      subst hn0
      simp [he]
    · rw [if_neg he]
      rw [ih (attempt + 1) (calls + 1) (by omega) (by omega)]
      have : calls + 1 + n = calls + (n + 1) := by omega
      rw [this]

theorem processGo_allRetryable (attempt : Nat -> Analyzer.AttemptOutcome)
    (m : Nat -> String) (r : Nat -> Option String) (maxRetries : Nat)
    (hatt : ∀ k, attempt k = .errorResult (m k) (r k))
    (hretry : ∀ k, Analyzer.anyKeywordIn Analyzer.retryableErrors (m k) = true) :
    ∀ fuel k le, k + fuel = maxRetries → 1 ≤ fuel →
    Analyzer.processGo attempt maxRetries fuel k le
      = (.failed (m (maxRetries - 1)) (r (maxRetries - 1)), maxRetries) := by
  intro fuel
  induction fuel with
  | zero =>
    intro k le h h1
    omega
  | succ n ih =>
    intro k le h h1
    simp only [Analyzer.processGo, hatt k]
    by_cases hlt : k < maxRetries - 1
    · rw [if_pos ⟨hretry k, hlt⟩]
      exact ih (k + 1) (some (m k)) (by omega) (by omega)
    · rw [if_neg (fun hc => hlt hc.2)]
      have hk : k = maxRetries - 1 := by omega
      have hk1 : k + 1 = maxRetries := by omega
      rw [hk1, hk]

theorem backoffSeq_nonneg (j : Nat -> ℚ) (hj : ∀ i, 4/5 ≤ j i ∧ j i ≤ 6/5) :
    ∀ k, 0 ≤ Analyzer.backoffSeq j k := by
  intro k
  induction k with
  | zero => norm_num [Analyzer.backoffSeq]
  | succ n ih =>
    have hj0 : 0 ≤ j n := le_trans (by norm_num) (hj n).1
    simp only [Analyzer.backoffSeq, Analyzer.backoffNext]
    exact mul_nonneg (le_min (by norm_num) (mul_nonneg ih (by norm_num))) hj0

/-- C4: a call that always fails with a transient (retryable) error is
attempted exactly `max_attempts` times by the `retry` decorator and
exactly `max_retries` times by `process_photo_with_openai`; the
inter-attempt delay is non-decreasing (geometric without a cap for
`retry`; doubling-with-jitter below the 30-second cap for the process
loop); and the operation terminates with the last underlying error
preserved in the returned outcome. -/
theorem C4_retry_bound (f : Nat -> Except String Unit) (e : Nat -> String)
    (maxAttempts : Nat) (d b : ℚ) (attempt : Nat -> Analyzer.AttemptOutcome)
    (m : Nat -> String) (r : Nat -> Option String) (maxRetries : Nat) (j : Nat -> ℚ)
    (hA : 1 ≤ maxAttempts) (hf : ∀ k, f k = .error (e k))
    (hd : 0 ≤ d) (hb : 1 ≤ b) (hR : 1 ≤ maxRetries)
    (hatt : ∀ k, attempt k = .errorResult (m k) (r k))
    (hretry : ∀ k, Analyzer.anyKeywordIn Analyzer.retryableErrors (m k) = true)
    (hj : ∀ i, 4/5 ≤ j i ∧ j i ≤ 6/5) :
    ApiUtils.retryRun f maxAttempts = (some (.error (e maxAttempts)), maxAttempts) ∧
    (∀ k, ApiUtils.apiDelay d b k ≤ ApiUtils.apiDelay d b (k + 1)) ∧
    Analyzer.processPhoto attempt maxRetries
      = (.failed (m (maxRetries - 1)) (r (maxRetries - 1)), maxRetries) ∧
    (∀ k, 2 * Analyzer.backoffSeq j k ≤ 30 →
      Analyzer.backoffSeq j k ≤ Analyzer.backoffSeq j (k + 1)) := by
  refine ⟨?_, ?_, ?_, ?_⟩
  · unfold ApiUtils.retryRun
    rw [retryGo_allFail f e maxAttempts hf maxAttempts 1 0 (by omega) hA]
    rw [Nat.zero_add]
  · intro k
    have hpk : (0:ℚ) ≤ b ^ k := pow_nonneg (by linarith) k
    simp only [ApiUtils.apiDelay, pow_succ]
    nlinarith [mul_nonneg hd hpk]
  · unfold Analyzer.processPhoto
    exact processGo_allRetryable attempt m r maxRetries hatt hretry maxRetries 0 none
      (by omega) hR
  · intro k hcap
    have h0 := backoffSeq_nonneg j hj k
    have hjk := hj k
    simp only [Analyzer.backoffSeq, Analyzer.backoffNext]
    have hmin : min (30:ℚ) (Analyzer.backoffSeq j k * 2) = Analyzer.backoffSeq j k * 2 :=
      min_eq_right (by linarith)
    rw [hmin]
    nlinarith [hjk.1, hjk.2]

/-- C4 witness: a call failing every time with `"boom"` under `retry`
with three attempts, and an analysis failing every time with the
retryable `"timeout"` under the process loop with three retries. -/
theorem C4_retry_bound_witness :
    ApiUtils.retryRun (fun _ => (.error "boom" : Except String Unit)) 3
      = (some (.error "boom"), 3) ∧
    Analyzer.processPhoto (fun _ => .errorResult "timeout" none) 3
      = (.failed "timeout" none, 3) := by
  have h := C4_retry_bound (fun _ => (.error "boom" : Except String Unit)) (fun _ => "boom")
    3 1 2 (fun _ => .errorResult "timeout" none) (fun _ => "timeout") (fun _ => none) 3
    (fun _ => 1) (by omega) (fun _ => rfl) (by norm_num) (by norm_num) (by omega)
    (fun _ => rfl)
    (fun _ => (by decide : Analyzer.anyKeywordIn Analyzer.retryableErrors "timeout" = true))
    (fun _ => ⟨by norm_num, by norm_num⟩)
  exact ⟨h.1, h.2.2.1⟩

theorem applyEvent_bounds (cfg : Analyzer.LimiterConfig) (s : Analyzer.LimiterState)
    (e : Analyzer.LimiterEvent)
    (hreq : s.requestTokens ≤ cfg.requestsPerMinute)
    (htok : s.tokens ≤ cfg.maxTokensPerMinute)
    (hn : ∀ n, e = .acquire n → 0 ≤ n) :
    (Analyzer.applyEvent cfg s e).requestTokens ≤ cfg.requestsPerMinute ∧
    (Analyzer.applyEvent cfg s e).tokens ≤ cfg.maxTokensPerMinute := by
  cases e with
  | refill t =>
    simp only [Analyzer.applyEvent, Analyzer.refillStep]
    exact ⟨min_le_left _ _, min_le_left _ _⟩
  | acquire n =>
    have hn0 : 0 ≤ n := hn n rfl
    simp only [Analyzer.applyEvent]
    split
    · rename_i s2 heq
      unfold Analyzer.tryConsume at heq
      split at heq
      · cases heq
        refine ⟨?_, ?_⟩ <;> dsimp only <;> linarith
      · cases heq
    · exact ⟨hreq, htok⟩

theorem runEvents_bounds (cfg : Analyzer.LimiterConfig) :
    ∀ (es : List Analyzer.LimiterEvent) (s : Analyzer.LimiterState),
    s.requestTokens ≤ cfg.requestsPerMinute → s.tokens ≤ cfg.maxTokensPerMinute →
    (∀ n, Analyzer.LimiterEvent.acquire n ∈ es → 0 ≤ n) →
    (Analyzer.runEvents cfg s es).requestTokens ≤ cfg.requestsPerMinute ∧
    (Analyzer.runEvents cfg s es).tokens ≤ cfg.maxTokensPerMinute := by
  intro es
  induction es with
  | nil => intro s h1 h2 _; exact ⟨h1, h2⟩
  | cons ev rest ih =>
    intro s h1 h2 hev
    have hev1 : ∀ n, ev = .acquire n → 0 ≤ n := by
      intro n he
      exact hev n (he ▸ List.mem_cons_self ev rest)
    obtain ⟨g1, g2⟩ := applyEvent_bounds cfg s ev h1 h2 hev1
    have hrest : ∀ n, Analyzer.LimiterEvent.acquire n ∈ rest → 0 ≤ n := by
      intro n hm
      exact hev n (List.mem_cons_of_mem ev hm)
    exact ih (Analyzer.applyEvent cfg s ev) g1 g2 hrest

/-- C5, corrected: the refill computation obeys the token-bucket law
`available = min(ceiling, available + rate × elapsed / 60)` for both
buckets, and under any interleaving of refill ticks and admission
attempts with non-negative estimates the buckets never exceed their
ceilings; however the refill runs on a fixed one-second tick in a
separate background thread (`_refill_tokens`), and an admission attempt
(`wait_for_capacity`) only checks and consumes — it computes no refill. -/
theorem C5_token_bucket_bounds (cfg : Analyzer.LimiterConfig)
    (s : Analyzer.LimiterState) (t : ℚ) (es : List Analyzer.LimiterEvent)
    (hreq : s.requestTokens ≤ cfg.requestsPerMinute)
    (htok : s.tokens ≤ cfg.maxTokensPerMinute)
    (hev : ∀ n, Analyzer.LimiterEvent.acquire n ∈ es → 0 ≤ n) :
    ((Analyzer.refillStep cfg s t).tokens
        = min cfg.maxTokensPerMinute
            (s.tokens + cfg.maxTokensPerMinute * (t - s.lastRefillTime) / 60) ∧
     (Analyzer.refillStep cfg s t).requestTokens
        = min cfg.requestsPerMinute
            (s.requestTokens + cfg.requestsPerMinute * (t - s.lastRefillTime) / 60)) ∧
    (Analyzer.runEvents cfg s es).requestTokens ≤ cfg.requestsPerMinute ∧
    (Analyzer.runEvents cfg s es).tokens ≤ cfg.maxTokensPerMinute := by
  refine ⟨⟨rfl, rfl⟩, ?_⟩
  exact runEvents_bounds cfg es s hreq htok hev

/-- C5 witness: full buckets at rates 60 requests and 90000 tokens per
minute, one admission of 100 tokens followed by a refill tick. -/
theorem C5_token_bucket_bounds_witness :
    ((Analyzer.refillStep ⟨60, 90000⟩ ⟨60, 90000, 0⟩ 1).tokens
        = min (90000:ℚ) (90000 + 90000 * ((1:ℚ) - 0) / 60) ∧
     (Analyzer.refillStep ⟨60, 90000⟩ ⟨60, 90000, 0⟩ 1).requestTokens
        = min (60:ℚ) (60 + 60 * ((1:ℚ) - 0) / 60)) ∧
    (Analyzer.runEvents ⟨60, 90000⟩ ⟨60, 90000, 0⟩
        [.acquire 100, .refill 1]).requestTokens ≤ (60:ℚ) ∧
    (Analyzer.runEvents ⟨60, 90000⟩ ⟨60, 90000, 0⟩
        [.acquire 100, .refill 1]).tokens ≤ (90000:ℚ) := by
  have h := C5_token_bucket_bounds ⟨60, 90000⟩ ⟨60, 90000, 0⟩ 1 [.acquire 100, .refill 1]
    (le_refl _) (le_refl _)
    (by
      intro n hn
      rcases List.mem_cons.mp hn with h1 | h1
      · cases h1
        norm_num
      · rcases List.mem_cons.mp h1 with h2 | h2
        · simp at h2
        · cases h2)
  exact h

/-- C5 counterexample: with both buckets empty at time 0, the admission
check of the source consumes nothing and admits nothing even though the
wall clock has advanced 60 seconds, while the admission step the claim
describes (refill from elapsed time on the admission attempt itself,
`admitSpec`) would admit at the same instant — the refill is not computed
on the admission attempt. -/
theorem C5_no_refill_on_admission_counterexample :
    Analyzer.tryConsume ⟨0, 0, 0⟩ 1 = none ∧
    (Analyzer.admitSpec ⟨60, 90000⟩ ⟨0, 0, 0⟩ 60 1).isSome = true := by
  refine ⟨rfl, ?_⟩
  simp only [Analyzer.admitSpec, Analyzer.refillStep, Analyzer.tryConsume]
  norm_num

theorem tryConsume_consumes (s s2 : Analyzer.LimiterState) (n : ℚ)
    (h : Analyzer.tryConsume s n = some s2) :
    s2.requestTokens = s.requestTokens - 1 ∧ s2.tokens = s.tokens - n := by
  unfold Analyzer.tryConsume at h
  split at h
  · cases h
    exact ⟨rfl, rfl⟩
  · cases h

theorem waitLoop_spec (stateAt : Nat -> Analyzer.LimiterState) (needed maxTPM : ℚ)
    (hw1 : 1 ≤ Analyzer.waitTime needed maxTPM) :
    ∀ (fuel k : Nat) (t : ℚ), 60 ≤ t + (fuel : ℚ) * Analyzer.waitTime needed maxTPM →
    ∃ res kf, Analyzer.waitLoop stateAt needed maxTPM k t (fuel + 1) = some (res, kf) ∧
      kf ≤ k + fuel + 1 ∧
      (∀ s2, res = some s2 →
        ∃ i, k ≤ i ∧ i < kf ∧ Analyzer.tryConsume (stateAt i) needed = some s2) := by
  intro fuel
  induction fuel with
  | zero =>
    intro k t hle
    push_cast at hle
    have hnlt : ¬ (t < 60) := not_lt.mpr (by linarith)
    refine ⟨none, k, ?_, by omega, ?_⟩
    · simp [Analyzer.waitLoop, hnlt]
    · intro s2 habs
      cases habs
  | succ n ih =>
    intro k t hle
    by_cases ht : t < 60
    · cases hc : Analyzer.tryConsume (stateAt k) needed with
      | some s2 =>
        refine ⟨some s2, k + 1, ?_, by omega, ?_⟩
        · simp [Analyzer.waitLoop, ht, hc]
        · intro s3 he
          cases he
          exact ⟨k, le_refl k, by omega, hc⟩
      | none =>
        have hle2 : 60 ≤ (t + Analyzer.waitTime needed maxTPM)
            + (n : ℚ) * Analyzer.waitTime needed maxTPM := by
          push_cast at hle
          nlinarith
        obtain ⟨res, kf, heq, hkf, hcons⟩ := ih (k + 1) (t + Analyzer.waitTime needed maxTPM) hle2
        refine ⟨res, kf, ?_, by omega, ?_⟩
        · rw [show Analyzer.waitLoop stateAt needed maxTPM k t (n + 1 + 1)
              = Analyzer.waitLoop stateAt needed maxTPM (k + 1)
                  (t + Analyzer.waitTime needed maxTPM) (n + 1) from by
            simp [Analyzer.waitLoop, ht, hc]]
          exact heq
        · intro s2 hr
          obtain ⟨i, hi1, hi2, hi3⟩ := hcons s2 hr
          exact ⟨i, by omega, hi2, hi3⟩
    · refine ⟨none, k, ?_, by omega, ?_⟩
      · simp [Analyzer.waitLoop, ht]
      · intro s2 habs
        cases habs

/-- C9: admission waiting is time-bounded: for every token-state schedule
and every non-negative cost estimate, `wait_for_capacity` returns (within
at most 61 checks covering the 60-second ceiling), either admitting the
call — consuming one request token and the estimated tokens from the
state observed at some check — or reporting no capacity, in which case
the caller raises the capacity-exceeded error instead of blocking
indefinitely. -/
theorem C9_admission_wait_bounded (stateAt : Nat -> Analyzer.LimiterState)
    (needed maxTPM : ℚ) (hn : 0 ≤ needed) (hm : 0 < maxTPM) :
    (Analyzer.waitForCapacity stateAt needed maxTPM).isSome = true ∧
    (∀ res kf, Analyzer.waitForCapacity stateAt needed maxTPM = some (res, kf) →
      kf ≤ 61 ∧
      (∀ s2, res = some s2 → ∃ i, i < kf ∧
        Analyzer.tryConsume (stateAt i) needed = some s2 ∧
        s2.requestTokens = (stateAt i).requestTokens - 1 ∧
        s2.tokens = (stateAt i).tokens - needed) ∧
      (res = none → Analyzer.capacityGate false
        = .error "Timeout waiting for API capacity. Try again later.")) := by
  have hw1 : 1 ≤ Analyzer.waitTime needed maxTPM := by
    unfold Analyzer.waitTime
    have hdiv : 0 ≤ needed / maxTPM := div_nonneg hn (le_of_lt hm)
    nlinarith
  obtain ⟨res, kf, heq, hkf, hcons⟩ := waitLoop_spec stateAt needed maxTPM hw1 60 0 0
    (by push_cast; nlinarith)
  have heq2 : Analyzer.waitForCapacity stateAt needed maxTPM = some (res, kf) := heq
  constructor
  · rw [heq2]
    rfl
  · intro res2 kf2 h2
    rw [heq2] at h2
    have hres : res = res2 ∧ kf = kf2 := by
      have h3 := Option.some.inj h2
      exact ⟨congrArg Prod.fst h3, congrArg Prod.snd h3⟩
    obtain ⟨hres1, hres2⟩ := hres
    subst hres1
    subst hres2
    refine ⟨by omega, ?_, ?_⟩
    · intro s2 hs2
      obtain ⟨i, _, hi2, hi3⟩ := hcons s2 hs2
      obtain ⟨g1, g2⟩ := tryConsume_consumes (stateAt i) s2 needed hi3
      exact ⟨i, hi2, hi3, g1, g2⟩
    · intro _
      rfl

/-- C9 witness: a schedule keeping both buckets empty, estimate 1 token
at 90000 tokens per minute — `wait_for_capacity` still returns. -/
theorem C9_admission_wait_bounded_witness :
    (Analyzer.waitForCapacity (fun _ => ⟨0, 0, 0⟩) 1 90000).isSome = true :=
  (C9_admission_wait_bounded (fun _ => ⟨0, 0, 0⟩) 1 90000 (by norm_num) (by norm_num)).1

theorem analyzeGo_allFail {a : Type} (parse : String -> Option a) (fixups : String -> String)
    (raws : Nat -> String) (maxRetries : Nat)
    (hfail : ∀ i, i < maxRetries → Analyzer.parseContent parse fixups (raws i) = none) :
    ∀ fuel k, k + fuel = maxRetries → 1 ≤ fuel →
    Analyzer.analyzeGo parse fixups raws maxRetries fuel k
      = .malformed "Failed to parse JSON from response"
          (MetadataGen.pyTake (Analyzer.stripFences (raws (maxRetries - 1))) 500) := by
  intro fuel
  induction fuel with
  | zero =>
    intro k h h1
    omega
  | succ n ih =>
    intro k h h1
    have hk : k < maxRetries := by omega
    simp only [Analyzer.analyzeGo, hfail k hk]
    by_cases hke : k = maxRetries - 1
    · rw [if_pos hke, hke]
    · rw [if_neg hke]
      exact ih (k + 1) (by omega) (by omega)

/-- C7, corrected: the content fallback strips markdown fencing, locates
the outermost brace-delimited block and parses it (repairing it once on a
decode error); when a directly parsable block is found the loop returns
it, and when extraction fails at every retry the loop returns the typed
malformed-output record whose error text is
"Failed to parse JSON from response" and whose raw_response carries the
first 500 characters of the fence-stripped response text — the item
always receives a result. -/
theorem C7_malformed_output_result {a : Type} (parse : String -> Option a)
    (fixups : String -> String) (raws : Nat -> String) (maxRetries : Nat) (r : a)
    (hR : 1 ≤ maxRetries) :
    ((∀ i, i < maxRetries → Analyzer.parseContent parse fixups (raws i) = none) →
      Analyzer.analyzeParse parse fixups raws maxRetries
        = .malformed "Failed to parse JSON from response"
            (MetadataGen.pyTake (Analyzer.stripFences (raws (maxRetries - 1))) 500)) ∧
    (Analyzer.parseContent parse fixups (raws 0) = some r →
      Analyzer.analyzeParse parse fixups raws maxRetries = .done r) ∧
    (∀ s js, Analyzer.extractJsonSlice (Analyzer.stripFences s) = some js →
      parse js = some r → Analyzer.parseContent parse fixups s = some r) := by
  refine ⟨?_, ?_, ?_⟩
  · intro hfail
    unfold Analyzer.analyzeParse
    exact analyzeGo_allFail parse fixups raws maxRetries hfail maxRetries 0 (by omega) hR
  · intro hp
    unfold Analyzer.analyzeParse
    obtain ⟨n, rfl⟩ : ∃ n, maxRetries = n + 1 := ⟨maxRetries - 1, by omega⟩
    simp [Analyzer.analyzeGo, hp]
  · intro s js h1 h2
    simp only [Analyzer.parseContent, h1, h2]

/-- C7 witness: an oracle that never parses and a raw text with no braces
and no fences; after both retries the loop returns the malformed-output
record carrying the (un-truncated, being short) cleaned text. -/
theorem C7_malformed_output_result_witness :
    Analyzer.analyzeParse (fun _ => (none : Option Unit)) id (fun _ => "hello") 2
      = .malformed "Failed to parse JSON from response"
          (MetadataGen.pyTake (Analyzer.stripFences "hello") 500) :=
  (C7_malformed_output_result (fun _ => (none : Option Unit)) id (fun _ => "hello") 2 ()
    (by omega)).1 (fun _ _ => rfl)

set_option maxRecDepth 4000 in
/-- C7 counterexample: a 501-character unparsable response, plain and then
with a markdown fence prepended; in both cases the malformed-output record
stores only the first 500 characters of the fence-stripped text, so it
carries neither the raw response text in full nor, for the fenced input,
any of its fence characters — refuting the claim as stated. -/
theorem C7_raw_truncated_counterexample :
    Analyzer.analyzeParse (fun _ => (none : Option Unit)) id
        (fun _ => String.mk (List.replicate 501 (Char.ofNat 97))) 1
      = .malformed "Failed to parse JSON from response"
          (String.mk (List.replicate 500 (Char.ofNat 97))) ∧
    Analyzer.analyzeParse (fun _ => (none : Option Unit)) id
        (fun _ => "```json" ++ String.mk (List.replicate 501 (Char.ofNat 97))) 1
      = .malformed "Failed to parse JSON from response"
          (String.mk (List.replicate 500 (Char.ofNat 97))) ∧
    String.mk (List.replicate 500 (Char.ofNat 97))
      ≠ String.mk (List.replicate 501 (Char.ofNat 97)) := by
  refine ⟨rfl, rfl, by decide⟩
